import Mathlib

/-!
# Fresh Market — verification of the order-entry and migration core

Shallow embedding of the Fresh Market repository:

* `registrar_pedido` and its helpers model the order-entry commit of
  `FreshMarketApp.registrar_pedido` in `src/tinker.py` (lines 490-642):
  field validation, the stock lookup join, the shortage-confirmation
  prompt, ledger-id assignment from `SELECT MAX(id_venta)`, the ledger
  insert, the snapshot update and the transaction commit/rollback.
* `migrate_cities` / `migrate_products` model the lookup-or-insert
  reference-data resolution of `DatabaseMigrator` in `src/database.py`.
* `init_inventory` models `DatabaseMigrator.initialize_inventory`
  (sort by date descending, group by (city, product), take the first
  row, `INSERT OR REPLACE` into the snapshot table).
* `normalize_dataframe` models `normalize_dataframe` in
  `src/analysis.py`, with the pandas in-place column assignments made
  explicit: the function returns both the post-call state of its
  argument and its result.

Machine integers of the source are modelled as `Int`/`Nat`; the SQLite
`REAL` unit price as `ℚ` (only order comparisons with zero matter to
the claims); dates and timestamps as abstract `Int` day numbers.
-/

/-- A ledger row (SQLite table `ventas`), as inserted by
`registrar_pedido` in `src/tinker.py` (lines 571-593). -/
structure Venta where
  id_venta : Int
  id_cliente : String
  id_ciudad : Nat
  id_producto : Nat
  fecha : Int
  fecha_entrega : Int
  tiempo_entrega_dias : Int
  estado_entrega : String
  cantidad : Int
  precio_unitario : ℚ
  stock_inicial : Int
  stock_final : Int
deriving DecidableEq

/-- An inventory snapshot row (SQLite table `inventario`). -/
structure InvRow where
  id_inventario : Nat
  id_producto : Nat
  id_ciudad : Nat
  stock_actual : Int
  ultima_actualizacion : Int
deriving DecidableEq

/-- The database state seen by the desktop app: reference tables
`ciudades` and `productos` as (id, name) rows, the `ventas` ledger and
the `inventario` snapshot. -/
structure DB where
  ciudades : List (Nat × String)
  productos : List (Nat × String)
  ventas : List Venta
  inventario : List InvRow
deriving DecidableEq

/-- The joined stock lookup of `registrar_pedido` (`src/tinker.py`
lines 524-544): resolve the city and product names and return
`(stock_actual, id_inventario, id_producto, id_ciudad)` of the matching
inventory row, or `none` when no row matches.  Names are `UNIQUE` in
the schema, so taking the first match models the SQL join. -/
def lookupStock (db : DB) (ciudad producto : String) : Option (Int × Nat × Nat × Nat) :=
  (db.ciudades.find? (fun c => c.2 == ciudad)).bind (fun c =>
    (db.productos.find? (fun p => p.2 == producto)).bind (fun p =>
      (db.inventario.find? (fun i => i.id_producto == p.1 && i.id_ciudad == c.1)).map
        (fun i => (i.stock_actual, i.id_inventario, p.1, c.1))))

/-- One row of the `UPDATE inventario SET stock_actual = ?,
ultima_actualizacion = CURRENT_TIMESTAMP WHERE id_inventario = ?`
statement (`src/tinker.py` lines 597-604). -/
def updInvRow (idv : Nat) (s ts : Int) (x : InvRow) : InvRow :=
  if x.id_inventario == idv then
    { x with stock_actual := s, ultima_actualizacion := ts }
  else x

/-- The snapshot update of `registrar_pedido`: set `stock_actual` (and
the timestamp) on the row keyed by `id_inventario`. -/
def updateInv (inv : List InvRow) (idv : Nat) (s ts : Int) : List InvRow :=
  inv.map (updInvRow idv s ts)

/-- `SELECT MAX(id_venta) FROM ventas` (`src/tinker.py` line 560):
`none` on an empty ledger, otherwise the maximum id. -/
def sqlMaxIds : List Int → Option Int
  | [] => none
  | x :: xs => some (xs.foldl max x)

/-- Python's `(max_id or 0)` on the result of the `MAX` query:
`None` and `0` both fall back to `0`. -/
def pyOrZero : Option Int → Int
  | none => 0
  | some v => if v = 0 then 0 else v

/-- `nuevo_id_venta = (max_id or 0) + 1` (`src/tinker.py` line 562). -/
def nuevoIdVenta (vs : List Venta) : Int :=
  pyOrZero (sqlMaxIds (vs.map Venta.id_venta)) + 1

/-- Point at which the persistence layer fails during the commit.
SQLite buffers the `INSERT` and `UPDATE` of the open transaction until
`conn.commit()`; the `except` handlers of `registrar_pedido`
(`src/tinker.py` lines 637-642) run `conn.rollback()`, so any failure
restores the pre-commit database. -/
inductive FailMode
  | none
  | atInsert
  | atUpdate
  | atCommit
deriving DecidableEq

/-- Result of an order-entry submission, mirroring the messagebox exits
of `registrar_pedido`: missing form fields, numeric validation failure,
no inventory row for the (city, product) pair, shortage prompt declined,
persistence error (rolled back), or a successful commit carrying the new
ledger id, the new snapshot quantity and whether the low-stock
replenishment advisory fired. -/
inductive Outcome
  | missingFields
  | validationError
  | productUnavailable
  | shortageDeclined
  | persistenceError
  | committed (idVenta : Int) (nuevoStock : Int) (advisory : Bool)
deriving DecidableEq

/-- The parsed form inputs of the order-entry tab.  `fecha_actual` is
`datetime.now()` as an abstract day number; the parse (`int`/`float`)
of the text fields is modelled away, the emptiness check on the text
fields is kept. -/
structure OrderInput where
  cliente_id : String
  ciudad : String
  producto : String
  cantidad : Int
  dias_entrega : Int
  precio_unitario : ℚ
  fecha_actual : Int
deriving DecidableEq

/-- The ledger row built by the `INSERT INTO ventas` of
`registrar_pedido` (`src/tinker.py` lines 571-593): id from the `MAX`
query plus one, status `En tránsito`, `stock_inicial` the snapshot read,
`stock_final` clamped at zero. -/
def nuevaVenta (db : DB) (inp : OrderInput) (stock : Int) (idProd idCiudad : Nat) : Venta :=
  { id_venta := nuevoIdVenta db.ventas
    id_cliente := inp.cliente_id
    id_ciudad := idCiudad
    id_producto := idProd
    fecha := inp.fecha_actual
    fecha_entrega := inp.fecha_actual + inp.dias_entrega
    tiempo_entrega_dias := inp.dias_entrega
    estado_entrega := "En tránsito"
    cantidad := inp.cantidad
    precio_unitario := inp.precio_unitario
    stock_inicial := stock
    stock_final := max 0 (stock - inp.cantidad) }

/-- The commit phase of `registrar_pedido` (`src/tinker.py` lines
559-635): insert the ledger row, set the snapshot to
`max(0, stock_actual - cantidad)`, commit, and report the low-stock
advisory when the new stock is strictly below 10.  A persistence
failure at any of the three steps rolls the transaction back to the
pre-commit database. -/
def commitPedido (db : DB) (inp : OrderInput) (stock : Int) (idInv idProd idCiudad : Nat)
    (fail : FailMode) : DB × Outcome :=
  let venta := nuevaVenta db inp stock idProd idCiudad
  if fail = FailMode.atInsert then (db, Outcome.persistenceError)
  else
    let db1 := { db with ventas := db.ventas ++ [venta] }
    let nuevoStock := max 0 (stock - inp.cantidad)
    if fail = FailMode.atUpdate then (db, Outcome.persistenceError)
    else
      let db2 := { db1 with
        inventario := updateInv db1.inventario idInv nuevoStock inp.fecha_actual }
      if fail = FailMode.atCommit then (db, Outcome.persistenceError)
      else (db2, Outcome.committed (nuevoIdVenta db.ventas) nuevoStock
        (decide (nuevoStock < 10)))

/-- `FreshMarketApp.registrar_pedido` (`src/tinker.py` lines 490-642):
reject empty form fields, then non-positive quantity, then non-positive
unit price; look up the snapshot for the (city, product) pair; when the
snapshot is short of the request, ask for confirmation (`respuesta`)
and abort without writing when it is declined; otherwise run the
commit phase. -/
def registrar_pedido (db : DB) (inp : OrderInput) (respuesta : Bool)
    (fail : FailMode) : DB × Outcome :=
  if inp.cliente_id = "" ∨ inp.ciudad = "" ∨ inp.producto = "" then
    (db, Outcome.missingFields)
  else if inp.cantidad ≤ 0 then (db, Outcome.validationError)
  else if inp.precio_unitario ≤ 0 then (db, Outcome.validationError)
  else
    match lookupStock db inp.ciudad inp.producto with
    | none => (db, Outcome.productUnavailable)
    | some (stock, idInv, idProd, idCiudad) =>
      if stock < inp.cantidad then
        if respuesta then commitPedido db inp stock idInv idProd idCiudad fail
        else (db, Outcome.shortageDeclined)
      else commitPedido db inp stock idInv idProd idCiudad fail

/-- A sequence of order-entry submissions; returns the final database
and the quantities of the submissions that committed, in order. -/
def runOrders (db : DB) : List (OrderInput × Bool × FailMode) → DB × List Int
  | [] => (db, [])
  | c :: rest =>
    let r1 := registrar_pedido db c.1 c.2.1 c.2.2
    let r2 := runOrders r1.1 rest
    match r1.2 with
    | Outcome.committed _ _ _ => (r2.1, c.1.cantidad :: r2.2)
    | _ => r2

/-- The database produced by a successful commit: the ledger grows by
the new row, the snapshot row is set to the clamped new stock.  Proof
abbreviation for the right-hand side of `commit_none`. -/
def commitDB (db : DB) (inp : OrderInput) (q : Int) (i p c : Nat) : DB :=
  { db with
    ventas := db.ventas ++ [nuevaVenta db inp q p c]
    inventario := updateInv db.inventario i (max 0 (q - inp.cantidad)) inp.fecha_actual }

/-- The outcome reported by a successful commit.  Proof abbreviation. -/
def commitOut (db : DB) (inp : OrderInput) (q : Int) : Outcome :=
  Outcome.committed (nuevoIdVenta db.ventas) (max 0 (q - inp.cantidad))
    (decide (max 0 (q - inp.cantidad) < 10))

theorem commit_fail (db : DB) (inp : OrderInput) (q : Int) (i p c : Nat)
    (fail : FailMode) (h : fail ≠ FailMode.none) :
    commitPedido db inp q i p c fail = (db, Outcome.persistenceError) := by
  cases fail with
  | none => exact absurd rfl h
  | atInsert => rfl
  | atUpdate => rfl
  | atCommit => rfl

theorem commit_none (db : DB) (inp : OrderInput) (q : Int) (i p c : Nat) :
    commitPedido db inp q i p c FailMode.none = (commitDB db inp q i p c, commitOut db inp q) :=
  rfl

/-- Exhaustive description of one `registrar_pedido` call: either the
database is returned unchanged and the outcome is not a commit, or the
call found the snapshot row, validation passed, and the call performed
exactly the ledger insert plus the clamped snapshot update. -/
theorem registrar_cases (db : DB) (inp : OrderInput) (respuesta : Bool) (fail : FailMode) :
    ((registrar_pedido db inp respuesta fail).1 = db
      ∧ ∀ a b cc, (registrar_pedido db inp respuesta fail).2 ≠ Outcome.committed a b cc)
    ∨ ∃ q i p c, lookupStock db inp.ciudad inp.producto = some (q, i, p, c)
        ∧ 0 < inp.cantidad ∧ 0 < inp.precio_unitario
        ∧ registrar_pedido db inp respuesta fail = (commitDB db inp q i p c, commitOut db inp q) := by
  unfold registrar_pedido
  split
  · exact Or.inl ⟨rfl, by intro a b cc h; simp at h⟩
  case isFalse hfields =>
  split
  · exact Or.inl ⟨rfl, by intro a b cc h; simp at h⟩
  case isFalse hq =>
  split
  · exact Or.inl ⟨rfl, by intro a b cc h; simp at h⟩
  case isFalse hp =>
  split
  case h_1 => exact Or.inl ⟨rfl, by intro a b cc h; simp at h⟩
  case h_2 q i p c heq =>
    have hq' : 0 < inp.cantidad := by omega
    have hp' : 0 < inp.precio_unitario := lt_of_not_le hp
    by_cases hfail : fail = FailMode.none
    · subst hfail
      split
      · split
        · exact Or.inr ⟨q, i, p, c, heq, hq', hp', commit_none db inp q i p c⟩
        · exact Or.inl ⟨rfl, by intro a b cc h; simp at h⟩
      · exact Or.inr ⟨q, i, p, c, heq, hq', hp', commit_none db inp q i p c⟩
    · have hcf := commit_fail db inp q i p c fail hfail
      split
      · split
        · exact Or.inl ⟨congrArg Prod.fst hcf, by rw [hcf]; intro a b cc h; simp at h⟩
        · exact Or.inl ⟨rfl, by intro a b cc h; simp at h⟩
      · exact Or.inl ⟨congrArg Prod.fst hcf, by rw [hcf]; intro a b cc h; simp at h⟩

theorem findq_cons_pos {α : Type} (p : α → Bool) (a : α) (l : List α) (h : p a = true) :
    (a :: l).find? p = some a := by
  simp [List.find?_cons, h]

theorem findq_cons_neg {α : Type} (p : α → Bool) (a : α) (l : List α) (h : p a = false) :
    (a :: l).find? p = l.find? p := by
  simp [List.find?_cons, h]

theorem updInvRow_id_producto (idv : Nat) (s ts : Int) (x : InvRow) :
    (updInvRow idv s ts x).id_producto = x.id_producto := by
  unfold updInvRow; split <;> rfl

theorem updInvRow_id_ciudad (idv : Nat) (s ts : Int) (x : InvRow) :
    (updInvRow idv s ts x).id_ciudad = x.id_ciudad := by
  unfold updInvRow; split <;> rfl

/-- The snapshot update rewrites exactly the row the lookup found: if
the first row matching the (product, city) ids is `r` and its
`id_inventario` is the update key, then after `updateInv` the first
matching row is `r` with the new stock and timestamp. -/
theorem find?_updateInv (inv : List InvRow) (pid cid idv : Nat) (s ts : Int) (r : InvRow)
    (h : inv.find? (fun x => x.id_producto == pid && x.id_ciudad == cid) = some r)
    (hid : r.id_inventario = idv) :
    (updateInv inv idv s ts).find? (fun x => x.id_producto == pid && x.id_ciudad == cid)
      = some { r with stock_actual := s, ultima_actualizacion := ts } := by
  induction inv with
  | nil => simp at h
  | cons a tl ih =>
    unfold updateInv at ih ⊢
    simp only [List.map_cons]
    cases hpa : (a.id_producto == pid && a.id_ciudad == cid) with
    | true =>
      rw [findq_cons_pos _ a tl hpa] at h
      injection h with h
      subst h
      have hpa2 : ((updInvRow idv s ts a).id_producto == pid
          && (updInvRow idv s ts a).id_ciudad == cid) = true := by
        rwa [updInvRow_id_producto, updInvRow_id_ciudad]
      rw [findq_cons_pos (fun x : InvRow => x.id_producto == pid && x.id_ciudad == cid) _ _ hpa2]
      unfold updInvRow
      simp [hid]
    | false =>
      rw [findq_cons_neg _ a tl hpa] at h
      have hpa2 : ((updInvRow idv s ts a).id_producto == pid
          && (updInvRow idv s ts a).id_ciudad == cid) = false := by
        rwa [updInvRow_id_producto, updInvRow_id_ciudad]
      rw [findq_cons_neg (fun x : InvRow => x.id_producto == pid && x.id_ciudad == cid) _ _ hpa2]
      exact ih h

theorem commitDB_ciudades (db : DB) (inp : OrderInput) (q : Int) (i p c : Nat) :
    (commitDB db inp q i p c).ciudades = db.ciudades := rfl

theorem commitDB_productos (db : DB) (inp : OrderInput) (q : Int) (i p c : Nat) :
    (commitDB db inp q i p c).productos = db.productos := rfl

theorem commitDB_inventario (db : DB) (inp : OrderInput) (q : Int) (i p c : Nat) :
    (commitDB db inp q i p c).inventario
      = updateInv db.inventario i (max 0 (q - inp.cantidad)) inp.fecha_actual := rfl

theorem commitDB_ventas (db : DB) (inp : OrderInput) (q : Int) (i p c : Nat) :
    (commitDB db inp q i p c).ventas = db.ventas ++ [nuevaVenta db inp q p c] := rfl

/-- After a successful commit the lookup for the same pair returns the
clamped new stock, with ids unchanged. -/
theorem lookupStock_commitDB (db : DB) (inp : OrderInput) (q : Int) (i p c : Nat)
    (h : lookupStock db inp.ciudad inp.producto = some (q, i, p, c)) :
    lookupStock (commitDB db inp q i p c) inp.ciudad inp.producto
      = some (max 0 (q - inp.cantidad), i, p, c) := by
  unfold lookupStock at h ⊢
  rw [commitDB_ciudades, commitDB_productos, commitDB_inventario]
  cases hc : db.ciudades.find? (fun x => x.2 == inp.ciudad) with
  | none => rw [hc] at h; simp at h
  | some cr =>
    rw [hc] at h
    simp only [Option.some_bind] at h ⊢
    cases hp : db.productos.find? (fun x => x.2 == inp.producto) with
    | none => rw [hp] at h; simp at h
    | some pr =>
      rw [hp] at h
      simp only [Option.some_bind] at h ⊢
      cases hi : db.inventario.find? (fun x => x.id_producto == pr.1 && x.id_ciudad == cr.1) with
      | none => rw [hi] at h; simp at h
      | some ir =>
        rw [hi] at h
        simp only [Option.map_some', Option.some.injEq, Prod.mk.injEq] at h
        obtain ⟨hq, hiv, hpp, hcc⟩ := h
        subst hpp; subst hcc
        rw [find?_updateInv db.inventario pr.1 cr.1 i (max 0 (q - inp.cantidad))
          inp.fecha_actual ir hi hiv]
        simp [hq, hiv]

theorem runOrders_cons_nc (db : DB) (x : OrderInput × Bool × FailMode)
    (rest : List (OrderInput × Bool × FailMode))
    (h : ∀ a b cc, (registrar_pedido db x.1 x.2.1 x.2.2).2 ≠ Outcome.committed a b cc) :
    runOrders db (x :: rest) = runOrders (registrar_pedido db x.1 x.2.1 x.2.2).1 rest := by
  unfold runOrders
  cases ho : (registrar_pedido db x.1 x.2.1 x.2.2).2 with
  | committed a b cc => exact absurd ho (h a b cc)
  | missingFields => simp only [ho]; cases rest <;> rfl
  | validationError => simp only [ho]; cases rest <;> rfl
  | productUnavailable => simp only [ho]; cases rest <;> rfl
  | shortageDeclined => simp only [ho]; cases rest <;> rfl
  | persistenceError => simp only [ho]; cases rest <;> rfl

theorem runOrders_cons_c (db : DB) (x : OrderInput × Bool × FailMode)
    (rest : List (OrderInput × Bool × FailMode)) (a b : Int) (cc : Bool)
    (h : (registrar_pedido db x.1 x.2.1 x.2.2).2 = Outcome.committed a b cc) :
    runOrders db (x :: rest)
      = ((runOrders (registrar_pedido db x.1 x.2.1 x.2.2).1 rest).1,
         x.1.cantidad :: (runOrders (registrar_pedido db x.1 x.2.1 x.2.2).1 rest).2) := by
  unfold runOrders
  simp only [h]
  cases rest <;> rfl

/-- Along any same-pair sequence of submissions the snapshot quantity is
the clamped left fold of the committed quantities, and every committed
quantity is positive. -/
theorem runOrders_lookup (ciu prod : String) (calls : List (OrderInput × Bool × FailMode)) :
    ∀ (db : DB) (q : Int) (i p c : Nat),
      (∀ x ∈ calls, x.1.ciudad = ciu ∧ x.1.producto = prod) →
      lookupStock db ciu prod = some (q, i, p, c) →
      lookupStock (runOrders db calls).1 ciu prod
        = some ((runOrders db calls).2.foldl (fun a k => max 0 (a - k)) q, i, p, c)
      ∧ ∀ k ∈ (runOrders db calls).2, 0 < k := by
  induction calls with
  | nil =>
    intro db q i p c _ h
    refine ⟨?_, by simp [runOrders]⟩
    simpa [runOrders] using h
  | cons x rest ih =>
    intro db q i p c hcalls h
    have hx := hcalls x (by simp)
    have hrest : ∀ y ∈ rest, y.1.ciudad = ciu ∧ y.1.producto = prod :=
      fun y hy => hcalls y (by simp [hy])
    rcases registrar_cases db x.1 x.2.1 x.2.2 with ⟨hdb, hnc⟩ | ⟨q1, i1, p1, c1, hl, hcant, _, heq⟩
    · rw [runOrders_cons_nc db x rest hnc, hdb]
      exact ih db q i p c hrest h
    · rw [hx.1, hx.2, h] at hl
      simp only [Option.some.injEq, Prod.mk.injEq] at hl
      obtain ⟨hq1, hi1, hp1, hc1⟩ := hl
      subst hq1; subst hi1; subst hp1; subst hc1
      have h2 : (registrar_pedido db x.1 x.2.1 x.2.2).2 = commitOut db x.1 q :=
        congrArg Prod.snd heq
      have h1 : (registrar_pedido db x.1 x.2.1 x.2.2).1 = commitDB db x.1 q i p c :=
        congrArg Prod.fst heq
      rw [runOrders_cons_c db x rest (nuevoIdVenta db.ventas) (max 0 (q - x.1.cantidad))
        (decide (max 0 (q - x.1.cantidad) < 10)) h2, h1]
      have hlook : lookupStock (commitDB db x.1 q i p c) ciu prod
          = some (max 0 (q - x.1.cantidad), i, p, c) := by
        rw [← hx.1, ← hx.2]
        exact lookupStock_commitDB db x.1 q i p c (by rw [hx.1, hx.2]; exact h)
      obtain ⟨ha, hb⟩ := ih (commitDB db x.1 q i p c) (max 0 (q - x.1.cantidad)) i p c hrest hlook
      refine ⟨by simpa using ha, ?_⟩
      intro k hk
      rcases List.mem_cons.mp hk with hk | hk
      · subst hk; exact hcant
      · exact hb k hk

theorem foldl_clamp (qs : List Int) : ∀ q0 : Int, 0 ≤ q0 → (∀ x ∈ qs, 0 ≤ x) →
    qs.foldl (fun a k => max 0 (a - k)) q0 = max 0 (q0 - qs.sum) := by
  induction qs with
  | nil =>
    intro q0 h0 _
    simp [max_eq_right h0]
  | cons k tl ih =>
    intro q0 h0 hall
    have hk : 0 ≤ k := hall k (by simp)
    have htl : ∀ x ∈ tl, 0 ≤ x := fun x hx => hall x (by simp [hx])
    have hsum : 0 ≤ tl.sum := List.sum_nonneg htl
    simp only [List.foldl_cons, List.sum_cons]
    rw [ih _ (le_max_left _ _) htl]
    rcases le_or_lt (q0 - k) 0 with hle | hlt
    · rw [max_eq_left hle]
      have h1 : (0 : Int) - tl.sum ≤ 0 := by omega
      have h2 : q0 - (k + tl.sum) ≤ 0 := by omega
      rw [max_eq_left h1, max_eq_left h2]
    · rw [max_eq_right (le_of_lt hlt)]
      congr 1
      ring

/-- Concrete one-pair database used to exercise the theorems: one city,
one product, empty ledger, snapshot quantity `s`. -/
def exDB (s : Int) : DB :=
  { ciudades := [(1, "Bogotá")]
    productos := [(1, "Granola")]
    ventas := []
    inventario := [{ id_inventario := 1, id_producto := 1, id_ciudad := 1,
                     stock_actual := s, ultima_actualizacion := 0 }] }

/-- Concrete form input requesting quantity `n` of the fixture pair. -/
def exInp (n : Int) : OrderInput :=
  { cliente_id := "c1", ciudad := "Bogotá", producto := "Granola",
    cantidad := n, dias_entrega := 3, precio_unitario := 2, fecha_actual := 100 }

/-- C1 counterexample: the claimed invariant `final = q0 − Σ committed`
fails on a shortage-overridden commit.  Starting from snapshot 5, a
single confirmed order of quantity 8 commits (committed quantities sum
to 8), yet the final snapshot is 0, not 5 − 8 = −3. -/
theorem c1_commit_sum_cex :
    lookupStock (exDB 5) "Bogotá" "Granola" = some (5, 1, 1, 1)
    ∧ (runOrders (exDB 5) [(exInp 8, true, FailMode.none)]).2 = [8]
    ∧ lookupStock (runOrders (exDB 5) [(exInp 8, true, FailMode.none)]).1 "Bogotá" "Granola"
        = some (0, 1, 1, 1)
    ∧ (5 : Int) - 8 ≠ 0 := by decide

/-- C1 (amended): starting from a non-negative snapshot quantity `q`
for a (product, city) pair, after any sequence of order-entry
submissions for that pair (shortage-overridden ones included) the
snapshot quantity equals `max 0 (q − Σ committed quantities)`; when the
committed quantities do not exceed `q` this is exactly
`q − Σ committed quantities`. -/
theorem c1_commit_sum (db : DB) (calls : List (OrderInput × Bool × FailMode))
    (ciu prod : String) (q : Int) (i p c : Nat)
    (h : lookupStock db ciu prod = some (q, i, p, c)) (hq : 0 ≤ q)
    (hcalls : ∀ x ∈ calls, x.1.ciudad = ciu ∧ x.1.producto = prod) :
    lookupStock (runOrders db calls).1 ciu prod
      = some (max 0 (q - (runOrders db calls).2.sum), i, p, c) := by
  obtain ⟨h1, h2⟩ := runOrders_lookup ciu prod calls db q i p c hcalls h
  rw [h1, foldl_clamp _ q hq (fun x hx => le_of_lt (h2 x hx))]

theorem c1_commit_sum_w :
    lookupStock (runOrders (exDB 9)
        [(exInp 2, true, FailMode.none), (exInp 3, true, FailMode.none)]).1 "Bogotá" "Granola"
      = some (max 0 (9 - (runOrders (exDB 9)
          [(exInp 2, true, FailMode.none), (exInp 3, true, FailMode.none)]).2.sum), 1, 1, 1) :=
  c1_commit_sum (exDB 9) [(exInp 2, true, FailMode.none), (exInp 3, true, FailMode.none)]
    "Bogotá" "Granola" 9 1 1 1 (by decide) (by decide) (by decide)

/-- C2: when the persistence layer fails at the ledger insert, the
snapshot update or the transaction commit, the whole transaction is
rolled back: the database (ledger and snapshot included) is exactly the
pre-commit one, and no commit is reported. -/
theorem c2_commit_atomic (db : DB) (inp : OrderInput) (respuesta : Bool) (fail : FailMode)
    (h : fail ≠ FailMode.none) :
    (registrar_pedido db inp respuesta fail).1 = db
    ∧ ∀ a b cc, (registrar_pedido db inp respuesta fail).2 ≠ Outcome.committed a b cc := by
  unfold registrar_pedido
  split
  · exact ⟨rfl, by intro a b cc hx; simp at hx⟩
  split
  · exact ⟨rfl, by intro a b cc hx; simp at hx⟩
  split
  · exact ⟨rfl, by intro a b cc hx; simp at hx⟩
  split
  case h_1 => exact ⟨rfl, by intro a b cc hx; simp at hx⟩
  case h_2 q i p c heq =>
    have hcf := commit_fail db inp q i p c fail h
    split
    · split
      · exact ⟨congrArg Prod.fst hcf, by rw [hcf]; intro a b cc hx; simp at hx⟩
      · exact ⟨rfl, by intro a b cc hx; simp at hx⟩
    · exact ⟨congrArg Prod.fst hcf, by rw [hcf]; intro a b cc hx; simp at hx⟩

theorem c2_commit_atomic_w :
    (registrar_pedido (exDB 9) (exInp 2) true FailMode.atUpdate).1 = exDB 9 :=
  (c2_commit_atomic (exDB 9) (exInp 2) true FailMode.atUpdate (by decide)).1

/-- C3: with the form fields present, a submission whose quantity or
unit price is zero or negative is rejected by validation before any
database access: the outcome is the validation error and the database
is returned unchanged. -/
theorem c3_validation_first (db : DB) (inp : OrderInput) (respuesta : Bool) (fail : FailMode)
    (hfields : ¬(inp.cliente_id = "" ∨ inp.ciudad = "" ∨ inp.producto = ""))
    (h : inp.cantidad ≤ 0 ∨ inp.precio_unitario ≤ 0) :
    registrar_pedido db inp respuesta fail = (db, Outcome.validationError) := by
  unfold registrar_pedido
  rw [if_neg hfields]
  by_cases hq : inp.cantidad ≤ 0
  · rw [if_pos hq]
  · rcases h with h | h
    · exact absurd h hq
    · rw [if_neg hq, if_pos h]

theorem c3_validation_first_w :
    registrar_pedido (exDB 9) (exInp 0) true FailMode.none = (exDB 9, Outcome.validationError)
    ∧ registrar_pedido (exDB 9) { exInp 2 with precio_unitario := -1 } true FailMode.none
        = (exDB 9, Outcome.validationError) :=
  ⟨c3_validation_first (exDB 9) (exInp 0) true FailMode.none (by decide) (by decide),
   c3_validation_first (exDB 9) { exInp 2 with precio_unitario := -1 } true FailMode.none
     (by decide) (by decide)⟩

/-- C4 counterexample: the spec example is wrong on the code.  With a
snapshot of 8, submitting quantity 3 with the confirmation withheld
raises no shortage prompt at all (8 ≥ 3), and the commit proceeds: a
ledger row is written and the snapshot drops to 5 instead of staying
at 8. -/
theorem c4_shortage_cex :
    lookupStock (exDB 8) "Bogotá" "Granola" = some (8, 1, 1, 1)
    ∧ (registrar_pedido (exDB 8) (exInp 3) false FailMode.none).2
        = Outcome.committed 1 5 true
    ∧ lookupStock (registrar_pedido (exDB 8) (exInp 3) false FailMode.none).1
        "Bogotá" "Granola" = some (5, 1, 1, 1)
    ∧ (registrar_pedido (exDB 8) (exInp 3) false FailMode.none).1.ventas.length = 1 := by
  decide

/-- C4 (amended): whenever the shortage prompt is actually raised —
that is, the snapshot quantity is strictly below the requested
quantity — and the user declines it, the workflow aborts without
committing: the database is returned unchanged (snapshot untouched, no
ledger row) and the outcome is the declined-shortage exit.  (The spec
example must request more than the snapshot, e.g. quantity 9 against
snapshot 8; quantity 3 against snapshot 8 raises no prompt and
commits.) -/
theorem c4_shortage_declined (db : DB) (inp : OrderInput) (fail : FailMode)
    (q : Int) (i p c : Nat)
    (hl : lookupStock db inp.ciudad inp.producto = some (q, i, p, c))
    (hshort : q < inp.cantidad)
    (hfields : ¬(inp.cliente_id = "" ∨ inp.ciudad = "" ∨ inp.producto = ""))
    (hq : ¬inp.cantidad ≤ 0) (hp : ¬inp.precio_unitario ≤ 0) :
    registrar_pedido db inp false fail = (db, Outcome.shortageDeclined) := by
  unfold registrar_pedido
  rw [if_neg hfields, if_neg hq, if_neg hp, hl]
  simp [hshort]

theorem c4_shortage_declined_w :
    registrar_pedido (exDB 8) (exInp 9) false FailMode.none
      = (exDB 8, Outcome.shortageDeclined) :=
  c4_shortage_declined (exDB 8) (exInp 9) FailMode.none 8 1 1 1
    (by decide) (by decide) (by decide) (by decide) (by decide)

theorem foldl_max_init_le (xs : List Int) : ∀ a : Int, a ≤ xs.foldl max a := by
  induction xs with
  | nil => intro a; simp
  | cons x tl ih =>
    intro a
    simp only [List.foldl_cons]
    exact le_trans (le_max_left a x) (ih (max a x))

theorem foldl_max_le_of_mem (xs : List Int) : ∀ (a x : Int), x ∈ xs → x ≤ xs.foldl max a := by
  induction xs with
  | nil => intro a x hx; simp at hx
  | cons y tl ih =>
    intro a x hx
    simp only [List.foldl_cons]
    rcases List.mem_cons.mp hx with hx | hx
    · subst hx
      exact le_trans (le_max_right a x) (foldl_max_init_le tl (max a x))
    · exact ih (max a y) x hx

theorem foldl_max_mem (xs : List Int) : ∀ a : Int, xs.foldl max a = a ∨ xs.foldl max a ∈ xs := by
  induction xs with
  | nil => intro a; left; rfl
  | cons x tl ih =>
    intro a
    simp only [List.foldl_cons]
    rcases ih (max a x) with h | h
    · rcases max_choice a x with hm | hm
      · left; rw [h, hm]
      · right; rw [h, hm]; exact List.mem_cons_self x tl
    · right; exact List.mem_cons_of_mem x h

theorem pyOrZero_add_one (m : Int) : pyOrZero (some m) + 1 = m + 1 := by
  show (if m = 0 then 0 else m) + 1 = m + 1
  split <;> omega

theorem sqlMaxIds_cons (x : Int) (xs : List Int) :
    sqlMaxIds (x :: xs) = some (xs.foldl max x) := rfl

/-- C5: a successful commit assigns the ledger row the identifier
`max + 1`: when the ledger is empty the new id is 1, and when the `MAX`
query returns `m` the new id is `m + 1`, where `m` really is the
maximum (it belongs to the ledger ids and bounds them all). -/
theorem c5_next_id (db : DB) (inp : OrderInput) (respuesta : Bool) (fail : FailMode)
    (idv s : Int) (adv : Bool)
    (h : (registrar_pedido db inp respuesta fail).2 = Outcome.committed idv s adv) :
    (db.ventas = [] → idv = 1)
    ∧ (∀ m, sqlMaxIds (db.ventas.map Venta.id_venta) = some m →
        idv = m + 1 ∧ m ∈ db.ventas.map Venta.id_venta
          ∧ ∀ x ∈ db.ventas.map Venta.id_venta, x ≤ m)
    ∧ ∃ v, (registrar_pedido db inp respuesta fail).1.ventas = db.ventas ++ [v]
        ∧ v.id_venta = idv := by
  rcases registrar_cases db inp respuesta fail with ⟨_, hnc⟩ | ⟨q, i, p, c, _, _, _, heq⟩
  · exact absurd h (hnc idv s adv)
  · have h2 : (registrar_pedido db inp respuesta fail).2 = commitOut db inp q :=
      congrArg Prod.snd heq
    rw [h] at h2
    unfold commitOut at h2
    injection h2 with hid _ _
    rw [hid]
    refine ⟨?_, ?_, ?_⟩
    case refine_3 =>
      refine ⟨nuevaVenta db inp q p c, ?_, rfl⟩
      rw [congrArg Prod.fst heq, commitDB_ventas]
    · intro hnil
      unfold nuevoIdVenta
      rw [hnil]
      rfl
    · intro m hm
      unfold nuevoIdVenta
      cases hv : db.ventas.map Venta.id_venta with
      | nil => rw [hv] at hm; simp [sqlMaxIds] at hm
      | cons x xs =>
        rw [hv] at hm
        rw [sqlMaxIds_cons] at hm
        injection hm with hm
        rw [sqlMaxIds_cons, hm, pyOrZero_add_one]
        refine ⟨rfl, ?_, ?_⟩
        · rcases foldl_max_mem xs x with hc | hc
          · rw [← hm, hc]; exact List.mem_cons_self x xs
          · rw [← hm]; exact List.mem_cons_of_mem x hc
        · intro y hy
          rcases List.mem_cons.mp hy with hy | hy
          · subst hy; rw [← hm]; exact foldl_max_init_le xs y
          · rw [← hm]; exact foldl_max_le_of_mem xs x y hy

/-- Three historical ledger rows with ids 1, 2, 3 on top of the fixture
database. -/
def exVenta (n : Int) : Venta :=
  { id_venta := n, id_cliente := "c1", id_ciudad := 1, id_producto := 1,
    fecha := 50, fecha_entrega := 53, tiempo_entrega_dias := 3,
    estado_entrega := "Entregado", cantidad := 1, precio_unitario := 2,
    stock_inicial := 10, stock_final := 9 }

def exDB123 : DB :=
  { exDB 20 with ventas := [exVenta 1, exVenta 2, exVenta 3] }

theorem c5_next_id_w : ((4 : Int) = 3 + 1) ∧ ((1 : Int) = 1) :=
  ⟨((c5_next_id exDB123 (exInp 5) true FailMode.none 4 15 false (by decide)).2.1
      3 (by decide)).1,
   (c5_next_id (exDB 20) (exInp 5) true FailMode.none 1 15 false (by decide)).1 rfl⟩

/-- C6: on a successful commit the new snapshot quantity is the clamped
difference, and the replenishment advisory fires exactly when that new
quantity is strictly below the threshold of 10; the advisory is part of
the reported outcome only and never blocks the commit.  In particular a
commit leaving the snapshot at exactly 10 emits no advisory. -/
theorem c6_advisory_boundary (db : DB) (inp : OrderInput) (respuesta : Bool) (fail : FailMode)
    (q : Int) (i p c : Nat) (idv s : Int) (adv : Bool)
    (hl : lookupStock db inp.ciudad inp.producto = some (q, i, p, c))
    (h : (registrar_pedido db inp respuesta fail).2 = Outcome.committed idv s adv) :
    s = max 0 (q - inp.cantidad) ∧ (adv = true ↔ s < 10)
    ∧ lookupStock (registrar_pedido db inp respuesta fail).1 inp.ciudad inp.producto
        = some (s, i, p, c) := by
  rcases registrar_cases db inp respuesta fail with ⟨_, hnc⟩ | ⟨q1, i1, p1, c1, hl1, _, _, heq⟩
  · exact absurd h (hnc idv s adv)
  · rw [hl] at hl1
    simp only [Option.some.injEq, Prod.mk.injEq] at hl1
    obtain ⟨hq1, hi1, hp1, hc1⟩ := hl1
    subst hq1; subst hi1; subst hp1; subst hc1
    have h2 : (registrar_pedido db inp respuesta fail).2 = commitOut db inp q :=
      congrArg Prod.snd heq
    rw [h] at h2
    unfold commitOut at h2
    injection h2 with _ hs hadv
    subst hs
    subst hadv
    refine ⟨rfl, by simp, ?_⟩
    rw [congrArg Prod.fst heq]
    exact lookupStock_commitDB db inp q i p c hl

theorem c6_advisory_boundary_w :
    (10 : Int) = max 0 (15 - 5) ∧ (false = true ↔ (10 : Int) < 10)
    ∧ lookupStock (registrar_pedido (exDB 15) (exInp 5) true FailMode.none).1
        (exInp 5).ciudad (exInp 5).producto = some (10, 1, 1, 1) :=
  c6_advisory_boundary (exDB 15) (exInp 5) true FailMode.none 15 1 1 1 1 10 false
    (by decide) (by decide)

/-- C10: order entry preserves non-negativity of the snapshot: if every
snapshot quantity is non-negative before a `registrar_pedido` call, it
is non-negative after, and every ledger row the call may add carries a
non-negative clamped `stock_final`. -/
theorem c10_stock_nonneg (db : DB) (inp : OrderInput) (respuesta : Bool) (fail : FailMode)
    (h : ∀ r ∈ db.inventario, 0 ≤ r.stock_actual) :
    (∀ r ∈ (registrar_pedido db inp respuesta fail).1.inventario, 0 ≤ r.stock_actual)
    ∧ ∀ v ∈ (registrar_pedido db inp respuesta fail).1.ventas,
        v ∈ db.ventas ∨ 0 ≤ v.stock_final := by
  rcases registrar_cases db inp respuesta fail with ⟨hdb, _⟩ | ⟨q, i, p, c, _, _, _, heq⟩
  · rw [hdb]
    exact ⟨h, fun v hv => Or.inl hv⟩
  · have h1 : (registrar_pedido db inp respuesta fail).1 = commitDB db inp q i p c :=
      congrArg Prod.fst heq
    rw [h1]
    constructor
    · intro r hr
      rw [commitDB_inventario] at hr
      unfold updateInv at hr
      rcases List.mem_map.mp hr with ⟨x, hx, hxr⟩
      subst hxr
      unfold updInvRow
      split
      · simp only
        exact le_max_left 0 (q - inp.cantidad)
      · exact h x hx
    · intro v hv
      rw [commitDB_ventas] at hv
      rcases List.mem_append.mp hv with hv | hv
      · exact Or.inl hv
      · right
        rcases List.mem_singleton.mp hv with rfl
        exact le_max_left 0 (q - inp.cantidad)

/-- The snapshot row left by the overridden shortage commit on
`exDB 5`: clamped to zero, timestamped with the order date. -/
def exInvRow0 : InvRow :=
  { id_inventario := 1, id_producto := 1, id_ciudad := 1,
    stock_actual := 0, ultima_actualizacion := 100 }

theorem c10_stock_nonneg_w : (0 : Int) ≤ exInvRow0.stock_actual :=
  (c10_stock_nonneg (exDB 5) (exInp 8) true FailMode.none (by decide)).1
    exInvRow0 (by decide)

/-- A reference table (`ciudades` or `productos`): (id, name) rows plus
the `AUTOINCREMENT` counter for the next id. -/
structure RefTable where
  rows : List (Nat × String)
  nextId : Nat
deriving DecidableEq

/-- Whether a row with this name exists (the `UNIQUE(nombre)` check
behind `INSERT OR IGNORE`). -/
def hasName (t : RefTable) (nombre : String) : Bool :=
  t.rows.any (fun r => r.2 == nombre)

/-- `INSERT OR IGNORE INTO ciudades (nombre_ciudad) VALUES (?)`
(`src/database.py` lines 107-113): a duplicate name is ignored,
otherwise a row with the next auto-increment id is appended. -/
def insertOrIgnore (t : RefTable) (nombre : String) : RefTable :=
  if hasName t nombre then t
  else { rows := t.rows ++ [(t.nextId, nombre)], nextId := t.nextId + 1 }

/-- `SELECT id_ciudad FROM ciudades WHERE nombre_ciudad = ?`
(`src/database.py` lines 115-118). -/
def selectId (t : RefTable) (nombre : String) : Option Nat :=
  (t.rows.find? (fun r => r.2 == nombre)).map Prod.fst

/-- First-occurrence deduplication, modelling pandas
`Series.unique()`. -/
def uniquesAux {α : Type} [DecidableEq α] : List α → List α → List α
  | [], _ => []
  | x :: xs, seen => if x ∈ seen then uniquesAux xs seen else x :: uniquesAux xs (x :: seen)

def uniques {α : Type} [DecidableEq α] (l : List α) : List α := uniquesAux l []

/-- The per-name loop shared by `migrate_cities` and `migrate_products`
(`src/database.py` lines 106-118 and 130-143): insert-or-ignore the
name, then read its id back into the mapping. -/
def resolveLoop (t : RefTable) : List String → RefTable × List (String × Option Nat)
  | [] => (t, [])
  | n :: ns =>
    let t1 := insertOrIgnore t n
    let r := resolveLoop t1 ns
    (r.1, (n, selectId t1 n) :: r.2)

/-- `DatabaseMigrator.migrate_cities` (`src/database.py` lines 99-121):
deduplicate the city column, then resolve each distinct name. -/
def migrate_cities (t : RefTable) (df_ciudad : List String) :
    RefTable × List (String × Option Nat) :=
  resolveLoop t (uniques df_ciudad)

/-- `DatabaseMigrator.migrate_products` (`src/database.py` lines
123-146): textually the same loop over the product column. -/
def migrate_products (t : RefTable) (df_producto : List String) :
    RefTable × List (String × Option Nat) :=
  resolveLoop t (uniques df_producto)

theorem findq_append_some {α : Type} (p : α → Bool) (l l2 : List α) (a : α)
    (h : l.find? p = some a) : (l ++ l2).find? p = some a := by
  induction l with
  | nil => simp at h
  | cons x xs ih =>
    cases hx : p x with
    | true =>
      rw [findq_cons_pos p x xs hx] at h
      rw [List.cons_append, findq_cons_pos p x (xs ++ l2) hx]
      exact h
    | false =>
      rw [findq_cons_neg p x xs hx] at h
      rw [List.cons_append, findq_cons_neg p x (xs ++ l2) hx]
      exact ih h

theorem selectId_ext (t t2 : RefTable) (ext : List (Nat × String)) (n : String) (id : Nat)
    (h2 : t2.rows = t.rows ++ ext) (h : selectId t n = some id) :
    selectId t2 n = some id := by
  unfold selectId at h ⊢
  rw [h2]
  cases hf : t.rows.find? (fun r => r.2 == n) with
  | none => rw [hf] at h; simp at h
  | some a =>
    rw [hf] at h
    rw [findq_append_some (fun r => r.2 == n) t.rows ext a hf]
    exact h

theorem hasName_ext (t t2 : RefTable) (ext : List (Nat × String)) (n : String)
    (h2 : t2.rows = t.rows ++ ext) (h : hasName t n = true) :
    hasName t2 n = true := by
  unfold hasName at h ⊢
  rw [h2]
  simp only [List.any_append, Bool.or_eq_true]
  exact Or.inl h

theorem hasName_insert_self (t : RefTable) (n : String) :
    hasName (insertOrIgnore t n) n = true := by
  unfold insertOrIgnore
  cases hh : hasName t n with
  | true => simpa using hh
  | false =>
    simp only [Bool.false_eq_true, if_false]
    unfold hasName
    simp

theorem selectId_insert_isSome (t : RefTable) (n : String) :
    ∃ id, selectId (insertOrIgnore t n) n = some id := by
  have hh := hasName_insert_self t n
  unfold hasName at hh
  rw [List.any_eq_true] at hh
  obtain ⟨x, hx, hpx⟩ := hh
  have hs : ((insertOrIgnore t n).rows.find? (fun r => r.2 == n)).isSome := by
    rw [List.find?_isSome]
    exact ⟨x, hx, hpx⟩
  rcases Option.isSome_iff_exists.mp hs with ⟨a, ha⟩
  exact ⟨a.1, by unfold selectId; rw [ha]; rfl⟩

/-- Structure of one resolver pass: the table only grows by appended
rows, every processed name is present afterwards, and the returned
mapping reads each name's id off the final table. -/
theorem resolveLoop_spec (ns : List String) : ∀ t : RefTable,
    (∃ ext, (resolveLoop t ns).1.rows = t.rows ++ ext)
    ∧ (∀ n ∈ ns, hasName (resolveLoop t ns).1 n = true)
    ∧ (resolveLoop t ns).2 = ns.map (fun n => (n, selectId (resolveLoop t ns).1 n)) := by
  induction ns with
  | nil =>
    intro t
    exact ⟨⟨[], by simp [resolveLoop]⟩, by simp [resolveLoop], by simp [resolveLoop]⟩
  | cons n rest ih =>
    intro t
    obtain ⟨⟨ext, hext⟩, hpres, hmap⟩ := ih (insertOrIgnore t n)
    have hgrow : ∃ e0, (insertOrIgnore t n).rows = t.rows ++ e0 := by
      unfold insertOrIgnore
      cases hasName t n
      · exact ⟨[(t.nextId, n)], by simp⟩
      · exact ⟨[], by simp⟩
    obtain ⟨e0, he0⟩ := hgrow
    have hred : resolveLoop t (n :: rest)
        = ((resolveLoop (insertOrIgnore t n) rest).1,
           (n, selectId (insertOrIgnore t n) n) :: (resolveLoop (insertOrIgnore t n) rest).2) := rfl
    rw [hred]
    refine ⟨⟨e0 ++ ext, by rw [hext, he0, List.append_assoc]⟩, ?_, ?_⟩
    · intro m hm
      rcases List.mem_cons.mp hm with hm | hm
      · subst hm
        exact hasName_ext (insertOrIgnore t m) (resolveLoop (insertOrIgnore t m) rest).1
          ext m hext (hasName_insert_self t m)
      · exact hpres m hm
    · simp only [List.map_cons]
      have hsel : selectId (resolveLoop (insertOrIgnore t n) rest).1 n
          = selectId (insertOrIgnore t n) n := by
        obtain ⟨id, hid⟩ := selectId_insert_isSome t n
        rw [hid]
        exact selectId_ext (insertOrIgnore t n) (resolveLoop (insertOrIgnore t n) rest).1
          ext n id hext hid
      rw [hsel, hmap]

/-- A pass over names that are all already present changes nothing: the
table is returned as-is and the mapping just reads the existing ids. -/
theorem resolveLoop_stable (ns : List String) : ∀ t : RefTable,
    (∀ n ∈ ns, hasName t n = true) →
    resolveLoop t ns = (t, ns.map (fun n => (n, selectId t n))) := by
  induction ns with
  | nil => intro t _; rfl
  | cons n rest ih =>
    intro t h
    have hn : hasName t n = true := h n (by simp)
    have hins : insertOrIgnore t n = t := by
      unfold insertOrIgnore
      simp [hn]
    have hred : resolveLoop t (n :: rest)
        = ((resolveLoop (insertOrIgnore t n) rest).1,
           (n, selectId (insertOrIgnore t n) n) :: (resolveLoop (insertOrIgnore t n) rest).2) := rfl
    rw [hred, hins, ih t (fun m hm => h m (by simp [hm]))]
    simp

theorem insertOrIgnore_nodup (t : RefTable) (n : String)
    (h : (t.rows.map Prod.snd).Nodup) :
    ((insertOrIgnore t n).rows.map Prod.snd).Nodup := by
  unfold insertOrIgnore
  cases hh : hasName t n with
  | true => simpa using h
  | false =>
    simp only [Bool.false_eq_true, if_false]
    simp only [List.map_append, List.map_cons, List.map_nil]
    rw [List.nodup_append]
    refine ⟨h, by simp, ?_⟩
    intro a ha hb
    simp only [List.mem_singleton] at hb
    subst hb
    rcases List.mem_map.mp ha with ⟨r, hr, hrn⟩
    unfold hasName at hh
    have hcontra : t.rows.any (fun x => x.2 == a) = true :=
      List.any_eq_true.mpr ⟨r, hr, by simp [hrn]⟩
    rw [hcontra] at hh
    cases hh

theorem resolveLoop_nodup (ns : List String) : ∀ t : RefTable,
    (t.rows.map Prod.snd).Nodup → ((resolveLoop t ns).1.rows.map Prod.snd).Nodup := by
  induction ns with
  | nil => intro t h; exact h
  | cons n rest ih =>
    intro t h
    exact ih (insertOrIgnore t n) (insertOrIgnore_nodup t n h)

/-- C7: reference-data resolution is idempotent.  Starting from a table
with no duplicate names, a `migrate_cities` pass keeps names unique (so
no name ever gets two identifiers), and running the same pass again —
for cities or for products, which share the loop — returns the very
same table and the very same name-to-id mapping. -/
theorem c7_resolution_idempotent (t : RefTable) (names : List String)
    (h : (t.rows.map Prod.snd).Nodup) :
    ((migrate_cities t names).1.rows.map Prod.snd).Nodup
    ∧ migrate_cities (migrate_cities t names).1 names = migrate_cities t names
    ∧ migrate_products (migrate_cities t names).1 names = migrate_cities t names := by
  obtain ⟨⟨ext, hext⟩, hpres, hmap⟩ := resolveLoop_spec (uniques names) t
  have hstab := resolveLoop_stable (uniques names) (resolveLoop t (uniques names)).1 hpres
  have hsecond : resolveLoop (resolveLoop t (uniques names)).1 (uniques names)
      = resolveLoop t (uniques names) := by
    rw [hstab, Prod.ext_iff]
    exact ⟨rfl, hmap.symm⟩
  exact ⟨resolveLoop_nodup (uniques names) t h, hsecond, hsecond⟩

theorem c7_resolution_idempotent_w :
    ((migrate_cities { rows := [], nextId := 1 } ["Bogotá", "Cali", "Bogotá"]).1.rows.map
        Prod.snd).Nodup
    ∧ migrate_cities (migrate_cities { rows := [], nextId := 1 }
          ["Bogotá", "Cali", "Bogotá"]).1 ["Bogotá", "Cali", "Bogotá"]
        = migrate_cities { rows := [], nextId := 1 } ["Bogotá", "Cali", "Bogotá"]
    ∧ migrate_products (migrate_cities { rows := [], nextId := 1 }
          ["Bogotá", "Cali", "Bogotá"]).1 ["Bogotá", "Cali", "Bogotá"]
        = migrate_cities { rows := [], nextId := 1 } ["Bogotá", "Cali", "Bogotá"] :=
  c7_resolution_idempotent { rows := [], nextId := 1 } ["Bogotá", "Cali", "Bogotá"]
    (by simp)

/-- A normalized order row as consumed by the migrator
(`src/database.py`): the CSV columns after `normalize_dataframe`. -/
structure SRow where
  id_venta : Int
  cliente_id : String
  ciudad : String
  producto : String
  fecha : Int
  tiempo_entrega_dias : Int
  estado_entrega : String
  cantidad : Int
  precio_unitario : ℚ
  stock_inicial_producto : Int
  stock_final_producto : Int
deriving DecidableEq

/-- `df.sort_values("fecha", ascending=False)`: the descending-by-date
order relation. -/
def fechaDesc (a b : SRow) : Prop := b.fecha ≤ a.fecha

instance : DecidableRel fechaDesc := fun a b => Int.decLe b.fecha a.fecha

instance : IsTotal SRow fechaDesc := ⟨fun a b => le_total b.fecha a.fecha⟩

instance : IsTrans SRow fechaDesc := ⟨fun _ _ _ h1 h2 => le_trans h2 h1⟩

/-- The `groupby(["ciudad", "producto"])` key of a row. -/
def pairOf (r : SRow) : String × String := (r.ciudad, r.producto)

/-- The `inventario` table as the migrator sees it: rows plus the
`AUTOINCREMENT` counter. -/
structure InvTable where
  rows : List InvRow
  nextId : Nat
deriving DecidableEq

/-- `INSERT OR REPLACE INTO inventario (id_producto, id_ciudad,
stock_actual) VALUES (?, ?, ?)` (`src/database.py` lines 217-224):
under `UNIQUE(id_producto, id_ciudad)` the conflicting row is deleted
and a fresh row (new id, default timestamp) is inserted. -/
def replaceInv (t : InvTable) (pid cid : Nat) (s ts : Int) : InvTable :=
  { rows := t.rows.filter (fun x => !(x.id_producto == pid && x.id_ciudad == cid))
      ++ [{ id_inventario := t.nextId, id_producto := pid, id_ciudad := cid,
            stock_actual := s, ultima_actualizacion := ts }]
    nextId := t.nextId + 1 }

/-- `df_sorted.groupby(["ciudad", "producto"]).first()`
(`src/database.py` line 210): for each distinct (city, product) pair of
the sorted history, the first row's final stock.  The enumeration order
of the groups is immaterial here because distinct pairs go to distinct
snapshot keys in `init_inventory`'s uniqueness hypotheses. -/
def ultimoStock (dfs : List SRow) : List (String × String × Int) :=
  (uniques (dfs.map pairOf)).filterMap (fun pr =>
    (dfs.find? (fun row => pairOf row == pr)).map
      (fun row => (pr.1, pr.2, row.stock_final_producto)))

/-- `DatabaseMigrator.initialize_inventory` (`src/database.py` lines
201-226): sort the history by date descending, take each pair's first
(most recent) row, and `INSERT OR REPLACE` its final stock into the
snapshot table, resolving names through the reference maps. -/
def init_inventory (df : List SRow) (cityId prodId : String → Nat) (ts : Int)
    (t : InvTable) : InvTable :=
  (ultimoStock (List.insertionSort fechaDesc df)).foldl
    (fun acc e => replaceInv acc (prodId e.2.1) (cityId e.1) e.2.2 ts) t

theorem uniquesAux_subset {α : Type} [DecidableEq α] (l : List α) :
    ∀ (seen : List α) (x : α), x ∈ uniquesAux l seen → x ∈ l := by
  induction l with
  | nil => intro seen x hx; simp [uniquesAux] at hx
  | cons a tl ih =>
    intro seen x hx
    unfold uniquesAux at hx
    split at hx
    · exact List.mem_cons_of_mem a (ih seen x hx)
    · rcases List.mem_cons.mp hx with hx | hx
      · subst hx; exact List.mem_cons_self _ _
      · exact List.mem_cons_of_mem a (ih (a :: seen) x hx)

theorem mem_uniquesAux {α : Type} [DecidableEq α] (l : List α) :
    ∀ (seen : List α) (x : α), x ∈ l → x ∉ seen → x ∈ uniquesAux l seen := by
  induction l with
  | nil => intro seen x hx; simp at hx
  | cons a tl ih =>
    intro seen x hx hns
    unfold uniquesAux
    split
    case isTrue hmem =>
      rcases List.mem_cons.mp hx with hx | hx
      · subst hx; exact absurd hmem hns
      · exact ih seen x hx hns
    case isFalse hmem =>
      rcases List.mem_cons.mp hx with hx | hx
      · subst hx; exact List.mem_cons_self _ _
      · by_cases hxa : x = a
        · subst hxa; exact List.mem_cons_self x _
        · refine List.mem_cons_of_mem a (ih (a :: seen) x hx ?_)
          intro hc
          rcases List.mem_cons.mp hc with hc | hc
          · exact hxa hc
          · exact hns hc

theorem uniquesAux_nodup {α : Type} [DecidableEq α] (l : List α) :
    ∀ seen : List α, (uniquesAux l seen).Nodup ∧ ∀ x ∈ uniquesAux l seen, x ∉ seen := by
  induction l with
  | nil => intro seen; simp [uniquesAux]
  | cons a tl ih =>
    intro seen
    unfold uniquesAux
    split
    case isTrue hmem => exact ih seen
    case isFalse hmem =>
      obtain ⟨hnd, hout⟩ := ih (a :: seen)
      constructor
      · rw [List.nodup_cons]
        refine ⟨?_, hnd⟩
        intro hc
        exact hout a hc (List.mem_cons_self a seen)
      · intro x hx hxs
        rcases List.mem_cons.mp hx with hx | hx
        · subst hx; exact hmem hxs
        · exact hout x hx (List.mem_cons_of_mem a hxs)

theorem mem_uniques {α : Type} [DecidableEq α] (l : List α) (x : α) :
    x ∈ uniques l ↔ x ∈ l :=
  ⟨fun h => uniquesAux_subset l [] x h,
   fun h => mem_uniquesAux l [] x h (by simp)⟩

theorem nodup_uniques {α : Type} [DecidableEq α] (l : List α) : (uniques l).Nodup :=
  (uniquesAux_nodup l []).1

/-- In a list sorted by descending date, the first row of a group is
the group's unique latest row, provided all its other rows are strictly
older. -/
theorem sorted_findq_latest (pr : String × String) (r0 : SRow) :
    ∀ l : List SRow, l.Sorted fechaDesc → r0 ∈ l → pairOf r0 = pr →
      (∀ y ∈ l, pairOf y = pr → y ≠ r0 → y.fecha < r0.fecha) →
      l.find? (fun x => pairOf x == pr) = some r0 := by
  intro l
  induction l with
  | nil => intro _ hr; cases hr
  | cons a tl ih =>
    intro hs hr hpr hmax
    have hrel := (List.sorted_cons.mp hs).1
    have hs2 := (List.sorted_cons.mp hs).2
    cases hpa : (pairOf a == pr) with
    | true =>
      rw [findq_cons_pos (fun x : SRow => pairOf x == pr) a tl hpa]
      have hpaeq : pairOf a = pr := by simpa using hpa
      by_cases hae : a = r0
      · rw [hae]
      · have hlt := hmax a (List.mem_cons_self a tl) hpaeq hae
        rcases List.mem_cons.mp hr with h0 | h0
        · exact absurd h0.symm hae
        · have hge : fechaDesc a r0 := hrel r0 h0
          unfold fechaDesc at hge
          omega
    | false =>
      rw [findq_cons_neg (fun x : SRow => pairOf x == pr) a tl hpa]
      have hne : r0 ≠ a := by
        intro hc
        rw [← hc, hpr] at hpa
        simp at hpa
      have hr2 : r0 ∈ tl := by
        rcases List.mem_cons.mp hr with h0 | h0
        · exact absurd h0 hne
        · exact h0
      exact ih hs2 hr2 hpr (fun y hy hpy hyne => hmax y (List.mem_cons_of_mem a hy) hpy hyne)

/-- The snapshot key predicate of the `UNIQUE(id_producto, id_ciudad)`
constraint. -/
def keyMatch (pid cid : Nat) (x : InvRow) : Bool :=
  x.id_producto == pid && x.id_ciudad == cid

theorem filter_keyMatch_replaceInv_other (t : InvTable) (pid cid pid2 cid2 : Nat) (s ts : Int)
    (h : ¬(pid2 = pid ∧ cid2 = cid)) :
    (replaceInv t pid2 cid2 s ts).rows.filter (keyMatch pid cid)
      = t.rows.filter (keyMatch pid cid) := by
  unfold replaceInv
  simp only [List.filter_append]
  have hnew : keyMatch pid cid
      { id_inventario := t.nextId, id_producto := pid2, id_ciudad := cid2,
        stock_actual := s, ultima_actualizacion := ts } = false := by
    unfold keyMatch
    simp only [Bool.and_eq_false_iff, beq_eq_false_iff_ne]
    by_cases h2 : pid2 = pid
    · exact Or.inr (fun hc => h ⟨h2, hc⟩)
    · exact Or.inl h2
  rw [List.filter_filter]
  have hcongr : ∀ x ∈ t.rows,
      (keyMatch pid cid x && !(x.id_producto == pid2 && x.id_ciudad == cid2))
        = keyMatch pid cid x := by
    intro x _
    cases hk : keyMatch pid cid x with
    | false => simp
    | true =>
      unfold keyMatch at hk
      simp only [Bool.and_eq_true, beq_iff_eq] at hk
      have : (x.id_producto == pid2 && x.id_ciudad == cid2) = false := by
        simp only [Bool.and_eq_false_iff, beq_eq_false_iff_ne]
        by_cases h2 : x.id_producto = pid2
        · refine Or.inr (fun hc => h ⟨?_, ?_⟩)
          · rw [← h2, hk.1]
          · rw [← hc, hk.2]
        · exact Or.inl h2
      rw [this]
      simp
  rw [List.filter_congr hcongr]
  simp [hnew]

theorem filter_keyMatch_replaceInv_self (t : InvTable) (pid cid : Nat) (s ts : Int) :
    ((replaceInv t pid cid s ts).rows.filter (keyMatch pid cid)).map InvRow.stock_actual
      = [s] := by
  unfold replaceInv
  simp only [List.filter_append]
  have hnew : keyMatch pid cid
      { id_inventario := t.nextId, id_producto := pid, id_ciudad := cid,
        stock_actual := s, ultima_actualizacion := ts } = true := by
    unfold keyMatch
    simp
  rw [List.filter_filter]
  have hzero : ∀ x ∈ t.rows,
      (keyMatch pid cid x && !(x.id_producto == pid && x.id_ciudad == cid)) = false := by
    intro x _
    unfold keyMatch
    cases hk : (x.id_producto == pid && x.id_ciudad == cid) <;> simp [hk]
  rw [List.filter_congr hzero]
  simp [hnew]

theorem foldl_replace_other (pid cid : Nat) (ts : Int) (cityId prodId : String → Nat) :
    ∀ (es : List (String × String × Int)) (t : InvTable),
      (∀ e ∈ es, ¬(prodId e.2.1 = pid ∧ cityId e.1 = cid)) →
      ((es.foldl (fun acc e => replaceInv acc (prodId e.2.1) (cityId e.1) e.2.2 ts) t).rows.filter
          (keyMatch pid cid))
        = t.rows.filter (keyMatch pid cid) := by
  intro es
  induction es with
  | nil => intro t _; rfl
  | cons e es ih =>
    intro t h
    have he := h e (List.mem_cons_self e es)
    have hes : ∀ x ∈ es, ¬(prodId x.2.1 = pid ∧ cityId x.1 = cid) :=
      fun x hx => h x (List.mem_cons_of_mem e hx)
    simp only [List.foldl_cons]
    rw [ih (replaceInv t (prodId e.2.1) (cityId e.1) e.2.2 ts) hes]
    exact filter_keyMatch_replaceInv_other t pid cid (prodId e.2.1) (cityId e.1) e.2.2 ts he

theorem foldl_replace_hit (pid cid : Nat) (ts : Int) (cityId prodId : String → Nat)
    (es1 es2 : List (String × String × Int)) (e0 : String × String × Int) (t : InvTable)
    (h0p : prodId e0.2.1 = pid) (h0c : cityId e0.1 = cid)
    (h2 : ∀ e ∈ es2, ¬(prodId e.2.1 = pid ∧ cityId e.1 = cid)) :
    ((((es1 ++ e0 :: es2).foldl
        (fun acc e => replaceInv acc (prodId e.2.1) (cityId e.1) e.2.2 ts) t).rows.filter
        (keyMatch pid cid)).map InvRow.stock_actual) = [e0.2.2] := by
  rw [List.foldl_append]
  simp only [List.foldl_cons]
  rw [foldl_replace_other pid cid ts cityId prodId es2 _ h2]
  rw [h0p, h0c]
  exact filter_keyMatch_replaceInv_self _ pid cid e0.2.2 ts

/-- Every entry of the grouped list comes from a group key of the input
and is realized by some row of the sorted history with that pair. -/
theorem ultimoStock_entry (dfs : List SRow) (u : List (String × String))
    (e : String × String × Int)
    (he : e ∈ u.filterMap (fun pr => (dfs.find? (fun row => pairOf row == pr)).map
        (fun row => (pr.1, pr.2, row.stock_final_producto)))) :
    (e.1, e.2.1) ∈ u ∧ ∃ row ∈ dfs, pairOf row = (e.1, e.2.1) := by
  rcases List.mem_filterMap.mp he with ⟨pr, hpru, hf⟩
  cases hfd : dfs.find? (fun row => pairOf row == pr) with
  | none => rw [hfd] at hf; simp at hf
  | some row =>
    rw [hfd] at hf
    simp only [Option.map_some', Option.some.injEq] at hf
    have hmem := List.mem_of_find?_eq_some hfd
    have hpair : pairOf row = pr := by
      have hp := List.find?_some hfd
      simpa using hp
    have he1 : e.1 = pr.1 := by rw [← hf]
    have he2 : e.2.1 = pr.2 := by rw [← hf]
    have hepr : (e.1, e.2.1) = pr := by rw [he1, he2]
    rw [hepr]
    exact ⟨hpru, row, hmem, hpair⟩

/-- C8: given the normalized order history, for every (product, city)
pair whose chronologically latest order is unique (every other order of
the pair is strictly older), and reference maps that identify no two
distinct name pairs, the bulk initializer leaves exactly one snapshot
row for the pair's resolved key — whatever the prior snapshot table
held — and its quantity is that latest order's recorded final stock. -/
theorem c8_inventory_latest (df : List SRow) (cityId prodId : String → Nat)
    (ts : Int) (t : InvTable) (r : SRow)
    (hr : r ∈ df)
    (hlatest : ∀ y ∈ df, pairOf y = pairOf r → y ≠ r → y.fecha < r.fecha)
    (hinj : ∀ r1 ∈ df, ∀ r2 ∈ df, prodId r1.producto = prodId r2.producto →
        cityId r1.ciudad = cityId r2.ciudad → pairOf r1 = pairOf r2) :
    (((init_inventory df cityId prodId ts t).rows.filter
        (keyMatch (prodId r.producto) (cityId r.ciudad))).map InvRow.stock_actual)
      = [r.stock_final_producto] := by
  unfold init_inventory
  have hperm : List.Perm (List.insertionSort fechaDesc df) df :=
    List.perm_insertionSort fechaDesc df
  have hsort : (List.insertionSort fechaDesc df).Sorted fechaDesc :=
    List.sorted_insertionSort fechaDesc df
  set dfs := List.insertionSort fechaDesc df with hdfs
  have hrs : r ∈ dfs := hperm.mem_iff.mpr hr
  have hlat2 : ∀ y ∈ dfs, pairOf y = pairOf r → y ≠ r → y.fecha < r.fecha :=
    fun y hy => hlatest y (hperm.mem_iff.mp hy)
  have hfind : dfs.find? (fun x => pairOf x == pairOf r) = some r :=
    sorted_findq_latest (pairOf r) r dfs hsort hrs rfl hlat2
  have hprU : pairOf r ∈ uniques (dfs.map pairOf) :=
    (mem_uniques _ _).mpr (List.mem_map_of_mem pairOf hrs)
  have hUnd : (uniques (dfs.map pairOf)).Nodup := nodup_uniques _
  obtain ⟨u1, u2, hU⟩ := List.append_of_mem hprU
  rw [hU] at hUnd
  rw [List.nodup_append] at hUnd
  have hpr_not_u1 : pairOf r ∉ u1 := fun hc => hUnd.2.2 hc (List.mem_cons_self _ _)
  have hpr_not_u2 : pairOf r ∉ u2 := (List.nodup_cons.mp hUnd.2.1).1
  have hus : ultimoStock dfs
      = (u1.filterMap (fun pr => (dfs.find? (fun row => pairOf row == pr)).map
            (fun row => (pr.1, pr.2, row.stock_final_producto))))
        ++ ((pairOf r).1, (pairOf r).2, r.stock_final_producto)
          :: (u2.filterMap (fun pr => (dfs.find? (fun row => pairOf row == pr)).map
            (fun row => (pr.1, pr.2, row.stock_final_producto)))) := by
    unfold ultimoStock
    rw [hU, List.filterMap_append]
    congr 1
    rw [List.filterMap_cons]
    rw [hfind]
    rfl
  have hkey : ∀ (uu : List (String × String)), pairOf r ∉ uu →
      ∀ e ∈ uu.filterMap (fun pr => (dfs.find? (fun row => pairOf row == pr)).map
          (fun row => (pr.1, pr.2, row.stock_final_producto))),
        ¬(prodId e.2.1 = prodId r.producto ∧ cityId e.1 = cityId r.ciudad) := by
    intro uu hnot e he hc
    obtain ⟨hmemu, row2, hrow2, hpair2⟩ := ultimoStock_entry dfs uu e he
    have hrow2df : row2 ∈ df := hperm.mem_iff.mp hrow2
    have hpp : prodId row2.producto = prodId r.producto := by
      have h2 : row2.producto = e.2.1 := by
        have h3 := congrArg Prod.snd hpair2
        simpa [pairOf] using h3
      rw [h2, hc.1]
    have hcc : cityId row2.ciudad = cityId r.ciudad := by
      have h2 : row2.ciudad = e.1 := by
        have h3 := congrArg Prod.fst hpair2
        simpa [pairOf] using h3
      rw [h2, hc.2]
    have heq := hinj row2 hrow2df r hr hpp hcc
    rw [hpair2] at heq
    rw [heq] at hmemu
    exact hnot hmemu
  rw [hus]
  exact foldl_replace_hit (prodId r.producto) (cityId r.ciudad) ts cityId prodId
    _ _ (((pairOf r).1, (pairOf r).2, r.stock_final_producto)) t rfl rfl
    (hkey u2 hpr_not_u2)

/-- Two orders for the fixture pair, dated 10 and 20, with final stocks
7 and 4. -/
def exSRow (f st : Int) : SRow :=
  { id_venta := 1, cliente_id := "c1", ciudad := "Bogotá", producto := "Granola",
    fecha := f, tiempo_entrega_dias := 3, estado_entrega := "Entregado",
    cantidad := 2, precio_unitario := 2,
    stock_inicial_producto := st + 2, stock_final_producto := st }

theorem c8_inventory_latest_w :
    (((init_inventory [exSRow 10 7, exSRow 20 4] (fun _ => 3) (fun _ => 5) 0
          { rows := [{ id_inventario := 9, id_producto := 5, id_ciudad := 3,
                       stock_actual := 99, ultima_actualizacion := 0 }], nextId := 10 }).rows.filter
        (keyMatch ((fun _ : String => 5) (exSRow 20 4).producto)
          ((fun _ : String => 3) (exSRow 20 4).ciudad))).map InvRow.stock_actual)
      = [(exSRow 20 4).stock_final_producto] :=
  c8_inventory_latest [exSRow 10 7, exSRow 20 4] (fun _ => 3) (fun _ => 5) 0
    { rows := [{ id_inventario := 9, id_producto := 5, id_ciudad := 3,
                 stock_actual := 99, ultima_actualizacion := 0 }], nextId := 10 }
    (exSRow 20 4) (by decide) (by decide) (by decide)

/-- A raw order record before normalization (`src/analysis.py`):
missing values are `none` (pandas `NaN`); the date is already the
abstract day number the parse produces. -/
structure RawRow where
  fecha : Option Int
  tiempo_entrega_dias : Option Int
  cantidad : Option Int
  precio_unitario : Option ℚ
  fecha_entrega : Option Int
  ingreso_total : Option ℚ
deriving DecidableEq

/-- A row is kept by `dropna()` when no column is missing. -/
def rowComplete (r : RawRow) : Bool :=
  r.fecha.isSome && r.tiempo_entrega_dias.isSome && r.cantidad.isSome
    && r.precio_unitario.isSome && r.fecha_entrega.isSome && r.ingreso_total.isSome

/-- The in-place column assignments of `normalize_dataframe`
(`src/analysis.py` lines 56-64) on one row: derive the delivery date
and the line revenue (`NaN` propagates through the arithmetic); the
`to_datetime` conversion is the identity on the abstract day number. -/
def deriveColumns (r : RawRow) : RawRow :=
  { r with
    fecha_entrega :=
      match r.fecha, r.tiempo_entrega_dias with
      | some f, some d => some (f + d)
      | _, _ => none
    ingreso_total :=
      match r.cantidad, r.precio_unitario with
      | some c, some p => some (c * p)
      | _, _ => none }

/-- `normalize_dataframe` (`src/analysis.py` lines 33-67).  The pandas
column assignments `df["fecha_entrega"] = ...` and
`df["ingreso_total"] = ...` mutate the caller's dataframe, while
`dropna()` builds a fresh frame; the model therefore returns the pair
(state of the argument after the call, returned frame). -/
def normalize_dataframe (df : List RawRow) : List RawRow × List RawRow :=
  let df2 := df.map deriveColumns
  (df2, df2.filter rowComplete)

/-- A raw one-row dataframe: order date and lead time present, the
derived columns still empty. -/
def exRaw : RawRow :=
  { fecha := some 0
    tiempo_entrega_dias := some 3
    cantidad := none
    precio_unitario := none
    fecha_entrega := none
    ingreso_total := none }

/-- C9 counterexample: the normalizer is not side-effect free.  On a
one-row dataframe whose delivery-date column is empty, the caller's
dataframe has gained the derived delivery date after the call, so the
argument is not left unchanged. -/
theorem c9_normalizer_cex :
    (normalize_dataframe [exRaw]).1 ≠ [exRaw]
    ∧ (normalize_dataframe [exRaw]).1.map RawRow.fecha_entrega = [some 3]
    ∧ [exRaw].map RawRow.fecha_entrega = [none] := by decide

/-- C9 (amended): the normalizer derives the delivery-date and
line-revenue columns in place — after the call the argument holds
exactly the derived rows (same rows, original columns untouched, only
the two derived columns written), and the returned frame is the
argument's new state with incomplete rows dropped; the argument keeps
all its rows. -/
theorem c9_normalizer_inplace (df : List RawRow) :
    (normalize_dataframe df).1 = df.map deriveColumns
    ∧ (normalize_dataframe df).1.map (fun r => (r.fecha, r.tiempo_entrega_dias,
        r.cantidad, r.precio_unitario))
      = df.map (fun r => (r.fecha, r.tiempo_entrega_dias, r.cantidad, r.precio_unitario))
    ∧ (normalize_dataframe df).1.length = df.length
    ∧ (normalize_dataframe df).2 = (normalize_dataframe df).1.filter rowComplete := by
  refine ⟨rfl, ?_, by simp [normalize_dataframe], rfl⟩
  show (df.map deriveColumns).map _ = _
  rw [List.map_map]
  rfl
